import Mathlib

/-!
A shallow embedding of `lib/Sema/TypeCheckInvertible.cpp`: the semantic
checker that validates a nominal type's claimed conformance to an
invertible protocol (`Copyable`, i.e. the spec's Duplication capability,
or `Escapable`, i.e. the spec's Locality capability).

External collaborators (the AST, the diagnostic engine, source locations,
and the generic-context substitution `mapTypeIntoContext`) are abstracted:
a member's type is recorded already resolved, and a diagnostic is a value
of the `Diag` type recording the diagnostic kind and its arguments, listed
in emission order.
-/

namespace Invertible

/-- The two invertible protocols (`InvertibleProtocolKind` in the source). -/
inductive InvertibleProtocolKind where
  | Copyable
  | Escapable
deriving DecidableEq, Repr

/-- The shape of a resolved type relevant to `tryEmitContainmentFixits`:
either a generic-parameter archetype (with whether its declaration exists
and lives in the same module), a nominal type (with whether it has a
source location), or anything else. -/
inductive TyOrigin where
  | genericParam (declExists : Bool) (sameModule : Bool)
  | nominalTy (hasLoc : Bool)
  | other
deriving DecidableEq, Repr

/-- The checker's view of a resolved type (`Type` in the source): the
boolean queries the source performs on it, plus its origin shape. -/
structure Ty where
  hasError : Bool
  isNoncopyable : Bool
  isEscapable : Bool
  origin : TyOrigin
deriving DecidableEq, Repr

/-- A stored property (`VarDecl`): its name and resolved value type
(the result of `dc->mapTypeIntoContext(property->getValueInterfaceType())`). -/
structure VarDecl where
  name : String
  valueType : Ty
deriving DecidableEq, Repr

/-- An enum element (`EnumElementDecl`): its name, whether it carries
associated values, and the resolved payload type. -/
structure EnumElementDecl where
  name : String
  hasAssociatedValues : Bool
  argumentType : Ty
deriving DecidableEq, Repr

/-- An enum case declaration (`EnumCaseDecl`), a list of elements. -/
structure EnumCaseDecl where
  elements : List EnumElementDecl
deriving DecidableEq, Repr

/-- The category of a nominal declaration reaching this checker. -/
inductive NominalKind where
  | structDecl
  | enumDecl
  | classDecl
deriving DecidableEq, Repr

/-- `InvertibleProtocolSet`: a set over the two invertible protocols. -/
structure InvertibleProtocolSet where
  copyable : Bool
  escapable : Bool
deriving DecidableEq, Repr

def InvertibleProtocolSet.contains (s : InvertibleProtocolSet) :
    InvertibleProtocolKind → Bool
  | .Copyable => s.copyable
  | .Escapable => s.escapable

def InvertibleProtocolSet.insert (s : InvertibleProtocolSet) :
    InvertibleProtocolKind → InvertibleProtocolSet
  | .Copyable => { s with copyable := true }
  | .Escapable => { s with escapable := true }

/-- A nominal type declaration (`NominalTypeDecl`), as read by the checker:
its category, its stored properties (struct/class), its cases (enum), the
inverses written directly in its inheritance clause (what
`getDirectlyInheritedNominalTypeDecls` collects), the two deprecated
attributes, and whether it has a user-defined value-type destructor. -/
structure NominalTypeDecl where
  kind : NominalKind
  storedProperties : List VarDecl
  allCases : List EnumCaseDecl
  inheritedInverses : InvertibleProtocolSet
  hasMoveOnlyAttr : Bool
  hasNonEscapableAttr : Bool
  hasValueTypeDestructor : Bool
deriving DecidableEq, Repr

/-- A protocol conformance (`ProtocolConformance`): whether the
`dyn_cast<NormalProtocolConformance>` succeeds and whether
`getConditionalRequirements()` is empty. -/
structure ProtocolConformance where
  isNormal : Bool
  conditionalRequirementsEmpty : Bool
deriving DecidableEq, Repr

/-- A diagnostic emitted by the checker, with the arguments the claims
care about. `inverseButAlsoConforms` is anchored at the conformance's
location, `copyableIllegalDeinit` at the destructor,
`inverseTypeMemberInConformingType` at the offending member, and
`addInverse` carries the suppression fix-it. -/
inductive Diag where
  | inverseButAlsoConforms (proto : InvertibleProtocolKind)
  | copyableIllegalDeinit
  | addInverse (proto : InvertibleProtocolKind)
  | inverseTypeMemberInConformingType (memberName : String) (isEnum : Bool)
      (proto : InvertibleProtocolKind)
  | noteInversePreventingConformance (proto : InvertibleProtocolKind)
  | noteInversePreventingConformanceExplicit (proto : InvertibleProtocolKind)
deriving DecidableEq, Repr

/-- `emitAdviceToApplyInverseAfter`: when `canAddInverse`, diagnose
`add_inverse` (with its conformance fix-it); otherwise emit nothing. -/
def emitAdviceToApplyInverseAfter (ip : InvertibleProtocolKind)
    (canAddInverse : Bool) : List Diag :=
  if canAddInverse then [Diag.addInverse ip] else []

/-- `tryEmitContainmentFixits`: the generic advice first, then a note at
the generic parameter (if the type is an archetype of a parameter declared
in this module) or at the offending nominal's declaration (if it has a
source location). -/
def tryEmitContainmentFixits (canAddInverse : Bool) (nonConformingTy : Ty)
    (ip : InvertibleProtocolKind) : List Diag :=
  emitAdviceToApplyInverseAfter ip canAddInverse ++
    match nonConformingTy.origin with
    | .genericParam declExists sameModule =>
        if declExists && sameModule then
          [Diag.noteInversePreventingConformance ip]
        else []
    | .nominalTy hasLoc =>
        if hasLoc then [Diag.noteInversePreventingConformanceExplicit ip]
        else []
    | .other => []

/-- `LacksMatchingStorage::check`: returns whether the walk must stop at
this member, together with the diagnostics it emits. Invalid storage is
ignored; a member passes under `Copyable` when its type is not
noncopyable, and under `Escapable` when its type is escapable; otherwise
the `inverse_type_member_in_conforming_type` diagnostic fires followed by
the containment fix-its. -/
def lacksMatchingStorageCheck (ip : InvertibleProtocolKind)
    (canAddInverse : Bool) (name : String) (type : Ty) (isEnum : Bool) :
    Bool × List Diag :=
  if type.hasError then (false, [])
  else
    let passes : Bool :=
      match ip with
      | .Copyable => !type.isNoncopyable
      | .Escapable => type.isEscapable
    if passes then (false, [])
    else
      (true,
        Diag.inverseTypeMemberInConformingType name isEnum ip ::
          tryEmitContainmentFixits canAddInverse type ip)

/-- `LacksMatchingStorage::operator()(VarDecl*, Type)`: handle a stored
property. -/
def lacksMatchingStorageVar (ip : InvertibleProtocolKind)
    (canAddInverse : Bool) (property : VarDecl) : Bool × List Diag :=
  lacksMatchingStorageCheck ip canAddInverse property.name
    property.valueType false

/-- `LacksMatchingStorage::operator()(EnumElementDecl*, Type)`: handle an
enum associated value. -/
def lacksMatchingStorageElem (ip : InvertibleProtocolKind)
    (canAddInverse : Bool) (element : EnumElementDecl) : Bool × List Diag :=
  lacksMatchingStorageCheck ip canAddInverse element.name
    element.argumentType true

/-- The stored-property leg of `StorageVisitor::visit`: walk properties in
declaration order, stop at the first member on which the callback answers
true. Returns the stop flag and all emitted diagnostics in order. -/
def visitStoredProperties (pred : VarDecl → Bool × List Diag) :
    List VarDecl → Bool × List Diag
  | [] => (false, [])
  | p :: ps =>
      let r := pred p
      if r.fst then (true, r.snd)
      else
        let rest := visitStoredProperties pred ps
        (rest.fst, r.snd ++ rest.snd)

/-- The element walk inside one enum case of `StorageVisitor::visit`:
elements without associated values are skipped. -/
def visitEnumElements (pred : EnumElementDecl → Bool × List Diag) :
    List EnumElementDecl → Bool × List Diag
  | [] => (false, [])
  | e :: es =>
      if !e.hasAssociatedValues then visitEnumElements pred es
      else
        let r := pred e
        if r.fst then (true, r.snd)
        else
          let rest := visitEnumElements pred es
          (rest.fst, r.snd ++ rest.snd)

/-- The case walk of `StorageVisitor::visit` over `getAllCases()`. -/
def visitEnumCases (pred : EnumElementDecl → Bool × List Diag) :
    List EnumCaseDecl → Bool × List Diag
  | [] => (false, [])
  | c :: cs =>
      let r := visitEnumElements pred c.elements
      if r.fst then (true, r.snd)
      else
        let rest := visitEnumCases pred cs
        (rest.fst, r.snd ++ rest.snd)

/-- `StorageVisitor::visit(nominal, dc)`: structs and classes walk their
stored properties; enums walk the elements of all cases; the callbacks are
the two `operator()` overloads. -/
def storageVisitorVisit (nominal : NominalTypeDecl)
    (predVar : VarDecl → Bool × List Diag)
    (predElem : EnumElementDecl → Bool × List Diag) : Bool × List Diag :=
  match nominal.kind with
  | .structDecl => visitStoredProperties predVar nominal.storedProperties
  | .classDecl => visitStoredProperties predVar nominal.storedProperties
  | .enumDecl => visitEnumCases predElem nominal.allCases

/-- The suppressed-capability set: the inverses in the inheritance clause,
plus `@_moveOnly` inserting `Copyable` and `@_nonEscapable` inserting
`Escapable` (the deprecated-attribute handling in
`checkInvertibleConformanceCommon`). -/
def computeInverses (nominalDecl : NominalTypeDecl) : InvertibleProtocolSet :=
  let inverses := nominalDecl.inheritedInverses
  let inverses :=
    if nominalDecl.hasMoveOnlyAttr then
      inverses.insert InvertibleProtocolKind.Copyable
    else inverses
  if nominalDecl.hasNonEscapableAttr then
    inverses.insert InvertibleProtocolKind.Escapable
  else inverses

/-- `checkInvertibleConformanceCommon`, with `moveOnlyClasses` standing
for `ctx.LangOpts.hasFeature(Feature::MoveOnlyClasses)`. Returns the
emitted diagnostics in order: the inverse/conformance contradiction, then
(for non-classes) the `Copyable` destructor rule and the storage walk. -/
def checkInvertibleConformanceCommon (moveOnlyClasses : Bool)
    (nominalDecl : NominalTypeDecl) (conformance : ProtocolConformance)
    (ip : InvertibleProtocolKind) : List Diag :=
  let inverses := computeInverses nominalDecl
  let hasExplicitInverse := inverses.contains ip
  let hasUnconditionalConformance :=
    conformance.isNormal && conformance.conditionalRequirementsEmpty
  let contradictionDiags :=
    if (!(nominalDecl.kind = NominalKind.classDecl) || moveOnlyClasses)
        && hasExplicitInverse && hasUnconditionalConformance then
      [Diag.inverseButAlsoConforms ip]
    else []
  if nominalDecl.kind = NominalKind.classDecl then contradictionDiags
  else
    let canAddInverse := !hasExplicitInverse && !hasUnconditionalConformance
    let deinitDiags :=
      if ip = InvertibleProtocolKind.Copyable
          && nominalDecl.hasValueTypeDestructor then
        Diag.copyableIllegalDeinit ::
          emitAdviceToApplyInverseAfter ip canAddInverse
      else []
    let storageDiags :=
      (storageVisitorVisit nominalDecl
        (lacksMatchingStorageVar ip canAddInverse)
        (lacksMatchingStorageElem ip canAddInverse)).snd
    contradictionDiags ++ deinitDiags ++ storageDiags

/-- `checkEscapableConformance`. -/
def checkEscapableConformance (moveOnlyClasses : Bool)
    (nominalDecl : NominalTypeDecl) (conformance : ProtocolConformance) :
    List Diag :=
  checkInvertibleConformanceCommon moveOnlyClasses nominalDecl conformance
    InvertibleProtocolKind.Escapable

/-- `checkCopyableConformance`. -/
def checkCopyableConformance (moveOnlyClasses : Bool)
    (nominalDecl : NominalTypeDecl) (conformance : ProtocolConformance) :
    List Diag :=
  checkInvertibleConformanceCommon moveOnlyClasses nominalDecl conformance
    InvertibleProtocolKind.Copyable

/-! Classification of the emitted diagnostics, for stating the claims. -/

def isContradictionDiag : Diag → Bool
  | .inverseButAlsoConforms _ => true
  | _ => false

def isDeinitDiag : Diag → Bool
  | .copyableIllegalDeinit => true
  | _ => false

def isStorageDiag : Diag → Bool
  | .inverseTypeMemberInConformingType _ _ _ => true
  | _ => false

def isAddInverseDiag : Diag → Bool
  | .addInverse _ => true
  | _ => false

/-- Number of diagnostics of a given class in an emission. -/
def countDiags (p : Diag → Bool) (ds : List Diag) : Nat :=
  (ds.filter p).length

/-- Whether a member's resolved type disqualifies the claimed capability:
not an error type, and (for `Copyable`) noncopyable, or (for `Escapable`)
not escapable. Mirrors the stop condition of
`LacksMatchingStorage::check`. -/
def memberDisqualifies (ip : InvertibleProtocolKind) (t : Ty) : Bool :=
  !t.hasError &&
    (match ip with
     | .Copyable => t.isNoncopyable
     | .Escapable => !t.isEscapable)

/-- Whether an enum element is visited and disqualifying: it carries
associated values whose type disqualifies the capability. -/
def enumElemDisq (ip : InvertibleProtocolKind) (e : EnumElementDecl) : Bool :=
  e.hasAssociatedValues && memberDisqualifies ip e.argumentType

/-- The gate the source computes as
`!hasExplicitInverse && !hasUnconditionalConformance`. -/
def canAddInverseOf (n : NominalTypeDecl) (conf : ProtocolConformance)
    (ip : InvertibleProtocolKind) : Bool :=
  !(computeInverses n).contains ip &&
    !(conf.isNormal && conf.conditionalRequirementsEmpty)

/-! ### Concrete fixtures used by witnesses and counterexamples -/

/-- A copyable, escapable, valid type (e.g. `Int`). -/
def escTy : Ty :=
  { hasError := false, isNoncopyable := false, isEscapable := true,
    origin := TyOrigin.other }

/-- A copyable type without the Escapable capability. -/
def nonEscTy : Ty :=
  { hasError := false, isNoncopyable := false, isEscapable := false,
    origin := TyOrigin.other }

/-- A noncopyable, escapable type. -/
def noncopyTy : Ty :=
  { hasError := false, isNoncopyable := true, isEscapable := true,
    origin := TyOrigin.other }

/-- A type already in an error state. -/
def errorTy : Ty :=
  { hasError := true, isNoncopyable := true, isEscapable := false,
    origin := TyOrigin.other }

/-- No inverses written in the inheritance clause. -/
def emptyInverseSet : InvertibleProtocolSet :=
  { copyable := false, escapable := false }

/-- An unconditional normal conformance. -/
def unconditionalConf : ProtocolConformance :=
  { isNormal := true, conditionalRequirementsEmpty := true }

/-- A conditional normal conformance. -/
def conditionalConf : ProtocolConformance :=
  { isNormal := true, conditionalRequirementsEmpty := false }

/-- Scenario D's enum: one case `a` with a payload lacking Escapable. -/
def enumE : NominalTypeDecl :=
  { kind := NominalKind.enumDecl, storedProperties := [],
    allCases := [{ elements :=
      [{ name := "a", hasAssociatedValues := true,
         argumentType := nonEscTy }] }],
    inheritedInverses := emptyInverseSet, hasMoveOnlyAttr := false,
    hasNonEscapableAttr := false, hasValueTypeDestructor := false }

/-- A struct with two noncopyable stored properties, in order `x`, `y`. -/
def structTwoBad : NominalTypeDecl :=
  { kind := NominalKind.structDecl,
    storedProperties :=
      [{ name := "x", valueType := noncopyTy },
       { name := "y", valueType := noncopyTy }],
    allCases := [], inheritedInverses := emptyInverseSet,
    hasMoveOnlyAttr := false, hasNonEscapableAttr := false,
    hasValueTypeDestructor := false }

/-- Scenario E's struct: a user-defined destructor, all storage copyable. -/
def structDeinit : NominalTypeDecl :=
  { kind := NominalKind.structDecl,
    storedProperties := [{ name := "x", valueType := escTy }],
    allCases := [], inheritedInverses := emptyInverseSet,
    hasMoveOnlyAttr := false, hasNonEscapableAttr := false,
    hasValueTypeDestructor := true }

/-- A class that suppresses Copyable, with a noncopyable field and a
destructor. -/
def classRef : NominalTypeDecl :=
  { kind := NominalKind.classDecl,
    storedProperties := [{ name := "x", valueType := noncopyTy }],
    allCases := [],
    inheritedInverses := { copyable := true, escapable := false },
    hasMoveOnlyAttr := false, hasNonEscapableAttr := false,
    hasValueTypeDestructor := true }

/-- A struct that suppresses Copyable in its inheritance clause. -/
def suppressedStruct : NominalTypeDecl :=
  { kind := NominalKind.structDecl,
    storedProperties := [{ name := "x", valueType := escTy }],
    allCases := [], inheritedInverses := { copyable := true, escapable := false },
    hasMoveOnlyAttr := false, hasNonEscapableAttr := false,
    hasValueTypeDestructor := false }

/-- A struct with an erroneous first member followed by a noncopyable
member. -/
def structErrThenBad : NominalTypeDecl :=
  { kind := NominalKind.structDecl,
    storedProperties :=
      [{ name := "x", valueType := errorTy },
       { name := "y", valueType := noncopyTy }],
    allCases := [], inheritedInverses := emptyInverseSet,
    hasMoveOnlyAttr := false, hasNonEscapableAttr := false,
    hasValueTypeDestructor := false }

/-! ### Helper lemmas -/

theorem countDiags_append (p : Diag → Bool) (a b : List Diag) :
    countDiags p (a ++ b) = countDiags p a + countDiags p b := by
  simp [countDiags, List.filter_append]

theorem check_eq_of_disq (ip : InvertibleProtocolKind) (canAdd : Bool)
    (name : String) (t : Ty) (isEnum : Bool)
    (h : memberDisqualifies ip t = true) :
    lacksMatchingStorageCheck ip canAdd name t isEnum =
      (true, Diag.inverseTypeMemberInConformingType name isEnum ip ::
        tryEmitContainmentFixits canAdd t ip) := by
  unfold memberDisqualifies at h
  unfold lacksMatchingStorageCheck
  cases ip <;> simp_all

theorem check_eq_of_not_disq (ip : InvertibleProtocolKind) (canAdd : Bool)
    (name : String) (t : Ty) (isEnum : Bool)
    (h : memberDisqualifies ip t = false) :
    lacksMatchingStorageCheck ip canAdd name t isEnum = (false, []) := by
  unfold memberDisqualifies at h
  unfold lacksMatchingStorageCheck
  cases ip <;> cases hhe : t.hasError <;> simp_all

theorem visitStored_none (ip : InvertibleProtocolKind) (canAdd : Bool)
    (ps : List VarDecl)
    (h : ps.find? (fun q => memberDisqualifies ip q.valueType) = none) :
    visitStoredProperties (lacksMatchingStorageVar ip canAdd) ps =
      (false, []) := by
  induction ps with
  | nil => rfl
  | cons p ps ih =>
      cases hq : memberDisqualifies ip p.valueType with
      | true =>
          rw [@List.find?_cons_of_pos _
            (fun q => memberDisqualifies ip q.valueType) p ps hq] at h
          exact absurd h (by simp)
      | false =>
          rw [@List.find?_cons_of_neg _
            (fun q => memberDisqualifies ip q.valueType) p ps
            (by simp [hq])] at h
          unfold visitStoredProperties
          rw [lacksMatchingStorageVar,
            check_eq_of_not_disq ip canAdd p.name p.valueType false hq]
          simp [ih h]

theorem visitStored_some (ip : InvertibleProtocolKind) (canAdd : Bool)
    (ps : List VarDecl) (q : VarDecl)
    (h : ps.find? (fun r => memberDisqualifies ip r.valueType) = some q) :
    visitStoredProperties (lacksMatchingStorageVar ip canAdd) ps =
      (true, Diag.inverseTypeMemberInConformingType q.name false ip ::
        tryEmitContainmentFixits canAdd q.valueType ip) := by
  induction ps with
  | nil => exact absurd h (by simp)
  | cons p ps ih =>
      cases hq : memberDisqualifies ip p.valueType with
      | true =>
          rw [@List.find?_cons_of_pos _
            (fun r => memberDisqualifies ip r.valueType) p ps hq] at h
          injection h with h
          subst h
          unfold visitStoredProperties
          rw [lacksMatchingStorageVar,
            check_eq_of_disq ip canAdd p.name p.valueType false hq]
          simp
      | false =>
          rw [@List.find?_cons_of_neg _
            (fun r => memberDisqualifies ip r.valueType) p ps
            (by simp [hq])] at h
          unfold visitStoredProperties
          rw [lacksMatchingStorageVar,
            check_eq_of_not_disq ip canAdd p.name p.valueType false hq]
          simp [ih h]

theorem visitElems_none (ip : InvertibleProtocolKind) (canAdd : Bool)
    (es : List EnumElementDecl)
    (h : es.find? (enumElemDisq ip) = none) :
    visitEnumElements (lacksMatchingStorageElem ip canAdd) es =
      (false, []) := by
  induction es with
  | nil => rfl
  | cons e es ih =>
      cases hq : enumElemDisq ip e with
      | true =>
          rw [List.find?_cons_of_pos _ hq] at h
          exact absurd h (by simp)
      | false =>
          rw [List.find?_cons_of_neg _ (by simp [hq])] at h
          unfold visitEnumElements
          cases ha : e.hasAssociatedValues with
          | false => simp [ha, ih h]
          | true =>
              have hm : memberDisqualifies ip e.argumentType = false := by
                unfold enumElemDisq at hq
                simp [ha] at hq
                exact hq
              rw [lacksMatchingStorageElem,
                check_eq_of_not_disq ip canAdd e.name e.argumentType true hm]
              simp [ha, ih h]

theorem visitElems_some (ip : InvertibleProtocolKind) (canAdd : Bool)
    (es : List EnumElementDecl) (e : EnumElementDecl)
    (h : es.find? (enumElemDisq ip) = some e) :
    visitEnumElements (lacksMatchingStorageElem ip canAdd) es =
      (true, Diag.inverseTypeMemberInConformingType e.name true ip ::
        tryEmitContainmentFixits canAdd e.argumentType ip) := by
  induction es with
  | nil => exact absurd h (by simp)
  | cons f es ih =>
      cases hq : enumElemDisq ip f with
      | true =>
          rw [List.find?_cons_of_pos _ hq] at h
          injection h with h
          subst h
          have ha : f.hasAssociatedValues = true := by
            unfold enumElemDisq at hq
            exact (Bool.and_eq_true _ _ |>.mp hq).1
          have hm : memberDisqualifies ip f.argumentType = true := by
            unfold enumElemDisq at hq
            exact (Bool.and_eq_true _ _ |>.mp hq).2
          unfold visitEnumElements
          rw [lacksMatchingStorageElem,
            check_eq_of_disq ip canAdd f.name f.argumentType true hm]
          simp [ha]
      | false =>
          rw [List.find?_cons_of_neg _ (by simp [hq])] at h
          unfold visitEnumElements
          cases ha : f.hasAssociatedValues with
          | false => simp [ha, ih h]
          | true =>
              have hm : memberDisqualifies ip f.argumentType = false := by
                unfold enumElemDisq at hq
                simp [ha] at hq
                exact hq
              rw [lacksMatchingStorageElem,
                check_eq_of_not_disq ip canAdd f.name f.argumentType true hm]
              simp [ha, ih h]

theorem visitCases_none (ip : InvertibleProtocolKind) (canAdd : Bool)
    (cs : List EnumCaseDecl)
    (h : (cs.flatMap EnumCaseDecl.elements).find? (enumElemDisq ip) = none) :
    visitEnumCases (lacksMatchingStorageElem ip canAdd) cs = (false, []) := by
  induction cs with
  | nil => rfl
  | cons c cs ih =>
      rw [List.flatMap_cons, List.find?_append] at h
      rw [Option.or_eq_none] at h
      unfold visitEnumCases
      rw [visitElems_none ip canAdd c.elements h.1]
      simp [ih h.2]

theorem visitCases_some (ip : InvertibleProtocolKind) (canAdd : Bool)
    (cs : List EnumCaseDecl) (e : EnumElementDecl)
    (h : (cs.flatMap EnumCaseDecl.elements).find? (enumElemDisq ip)
      = some e) :
    visitEnumCases (lacksMatchingStorageElem ip canAdd) cs =
      (true, Diag.inverseTypeMemberInConformingType e.name true ip ::
        tryEmitContainmentFixits canAdd e.argumentType ip) := by
  induction cs with
  | nil => exact absurd h (by simp)
  | cons c cs ih =>
      rw [List.flatMap_cons, List.find?_append] at h
      cases hc : c.elements.find? (enumElemDisq ip) with
      | some f =>
          rw [hc, Option.or_some] at h
          have hf : c.elements.find? (enumElemDisq ip) = some e := by
            rw [hc]; exact h
          unfold visitEnumCases
          rw [visitElems_some ip canAdd c.elements e hf]
          simp
      | none =>
          rw [hc, Option.none_or] at h
          unfold visitEnumCases
          rw [visitElems_none ip canAdd c.elements hc]
          simp [ih h]

theorem fixits_filter_eq_nil (canAdd : Bool) (t : Ty)
    (ip : InvertibleProtocolKind) (p : Diag → Bool)
    (hAdd : p (Diag.addInverse ip) = false)
    (hNote1 : p (Diag.noteInversePreventingConformance ip) = false)
    (hNote2 : p (Diag.noteInversePreventingConformanceExplicit ip) = false) :
    (tryEmitContainmentFixits canAdd t ip).filter p = [] := by
  unfold tryEmitContainmentFixits emitAdviceToApplyInverseAfter
  cases ho : t.origin with
  | genericParam de sm =>
      cases canAdd <;> cases de <;> cases sm <;>
        simp [List.filter_append, List.filter_cons, hAdd, hNote1, hNote2]
  | nominalTy hl =>
      cases canAdd <;> cases hl <;>
        simp [List.filter_append, List.filter_cons, hAdd, hNote1, hNote2]
  | other =>
      cases canAdd <;>
        simp [List.filter_append, List.filter_cons, hAdd, hNote1, hNote2]

theorem fixits_filter_addInverse_of_not (t : Ty)
    (ip : InvertibleProtocolKind) :
    (tryEmitContainmentFixits false t ip).filter isAddInverseDiag = [] := by
  unfold tryEmitContainmentFixits emitAdviceToApplyInverseAfter
  cases ho : t.origin with
  | genericParam de sm =>
      cases de <;> cases sm <;>
        simp [List.filter_append, List.filter_cons, isAddInverseDiag]
  | nominalTy hl =>
      cases hl <;>
        simp [List.filter_append, List.filter_cons, isAddInverseDiag]
  | other => simp [List.filter_append]

theorem check_class_eq (mo : Bool) (n : NominalTypeDecl)
    (conf : ProtocolConformance) (ip : InvertibleProtocolKind)
    (h : n.kind = NominalKind.classDecl) :
    checkInvertibleConformanceCommon mo n conf ip =
      (if mo && (computeInverses n).contains ip &&
          (conf.isNormal && conf.conditionalRequirementsEmpty) then
        [Diag.inverseButAlsoConforms ip]
      else []) := by
  unfold checkInvertibleConformanceCommon
  simp [h, Bool.and_assoc]

theorem check_nonclass_eq (mo : Bool) (n : NominalTypeDecl)
    (conf : ProtocolConformance) (ip : InvertibleProtocolKind)
    (h : ¬ n.kind = NominalKind.classDecl) :
    checkInvertibleConformanceCommon mo n conf ip =
      (if (computeInverses n).contains ip &&
          (conf.isNormal && conf.conditionalRequirementsEmpty) then
        [Diag.inverseButAlsoConforms ip]
      else []) ++
      (if ip = InvertibleProtocolKind.Copyable &&
          n.hasValueTypeDestructor then
        Diag.copyableIllegalDeinit ::
          emitAdviceToApplyInverseAfter ip (canAddInverseOf n conf ip)
      else []) ++
      (storageVisitorVisit n
        (lacksMatchingStorageVar ip (canAddInverseOf n conf ip))
        (lacksMatchingStorageElem ip (canAddInverseOf n conf ip))).snd := by
  unfold checkInvertibleConformanceCommon canAddInverseOf
  simp [h]

theorem storage_snd_cases (ip : InvertibleProtocolKind) (c : Bool)
    (n : NominalTypeDecl) :
    (storageVisitorVisit n (lacksMatchingStorageVar ip c)
      (lacksMatchingStorageElem ip c)).snd = [] ∨
    ∃ (name : String) (isEnum : Bool) (t : Ty),
      (storageVisitorVisit n (lacksMatchingStorageVar ip c)
        (lacksMatchingStorageElem ip c)).snd =
        Diag.inverseTypeMemberInConformingType name isEnum ip ::
          tryEmitContainmentFixits c t ip := by
  unfold storageVisitorVisit
  cases hk : n.kind with
  | structDecl =>
      cases hf : n.storedProperties.find?
          (fun q => memberDisqualifies ip q.valueType) with
      | none => left; rw [visitStored_none ip c _ hf]
      | some q =>
          right
          exact ⟨q.name, false, q.valueType,
            by rw [visitStored_some ip c _ q hf]⟩
  | classDecl =>
      cases hf : n.storedProperties.find?
          (fun q => memberDisqualifies ip q.valueType) with
      | none => left; rw [visitStored_none ip c _ hf]
      | some q =>
          right
          exact ⟨q.name, false, q.valueType,
            by rw [visitStored_some ip c _ q hf]⟩
  | enumDecl =>
      cases hf : (n.allCases.flatMap EnumCaseDecl.elements).find?
          (enumElemDisq ip) with
      | none => left; rw [visitCases_none ip c _ hf]
      | some e =>
          right
          exact ⟨e.name, true, e.argumentType,
            by rw [visitCases_some ip c _ e hf]⟩

theorem storagePart_count_of_not_mem (ip : InvertibleProtocolKind) (c : Bool)
    (n : NominalTypeDecl) (p : Diag → Bool)
    (hAdd : p (Diag.addInverse ip) = false)
    (hNote1 : p (Diag.noteInversePreventingConformance ip) = false)
    (hNote2 : p (Diag.noteInversePreventingConformanceExplicit ip) = false)
    (hMem : ∀ name isEnum,
      p (Diag.inverseTypeMemberInConformingType name isEnum ip) = false) :
    countDiags p ((storageVisitorVisit n (lacksMatchingStorageVar ip c)
      (lacksMatchingStorageElem ip c)).snd) = 0 := by
  rcases storage_snd_cases ip c n with h | ⟨name, isEnum, t, h⟩
  · rw [h]; rfl
  · rw [h]
    simp [countDiags, List.filter_cons, hMem,
      fixits_filter_eq_nil c t ip p hAdd hNote1 hNote2]

theorem storagePart_count_storage_le (ip : InvertibleProtocolKind) (c : Bool)
    (n : NominalTypeDecl) :
    countDiags isStorageDiag
      ((storageVisitorVisit n (lacksMatchingStorageVar ip c)
        (lacksMatchingStorageElem ip c)).snd) ≤ 1 := by
  rcases storage_snd_cases ip c n with h | ⟨name, isEnum, t, h⟩
  · rw [h]; simp [countDiags]
  · rw [h]
    simp [countDiags, List.filter_cons, isStorageDiag,
      fixits_filter_eq_nil c t ip isStorageDiag (by simp [isStorageDiag])
        (by simp [isStorageDiag]) (by simp [isStorageDiag])]

theorem storagePart_count_addInverse_zero (ip : InvertibleProtocolKind)
    (n : NominalTypeDecl) :
    countDiags isAddInverseDiag
      ((storageVisitorVisit n (lacksMatchingStorageVar ip false)
        (lacksMatchingStorageElem ip false)).snd) = 0 := by
  rcases storage_snd_cases ip false n with h | ⟨name, isEnum, t, h⟩
  · rw [h]; rfl
  · rw [h]
    simp [countDiags, List.filter_cons, isAddInverseDiag,
      fixits_filter_addInverse_of_not t ip]

theorem countDiags_or_le (a b : Diag → Bool) (l : List Diag) :
    countDiags (fun d => a d || b d) l ≤ countDiags a l + countDiags b l := by
  induction l with
  | nil => simp [countDiags]
  | cons d ds ih =>
      cases ha : a d <;> cases hb : b d <;>
        simp [countDiags, List.filter_cons, ha, hb] at * <;> omega

theorem storageVisit_struct (n : NominalTypeDecl)
    (hk : n.kind = NominalKind.structDecl)
    (pv : VarDecl → Bool × List Diag)
    (pe : EnumElementDecl → Bool × List Diag) :
    storageVisitorVisit n pv pe = visitStoredProperties pv n.storedProperties := by
  unfold storageVisitorVisit
  rw [hk]

theorem storageVisit_enum (n : NominalTypeDecl)
    (hk : n.kind = NominalKind.enumDecl)
    (pv : VarDecl → Bool × List Diag)
    (pe : EnumElementDecl → Bool × List Diag) :
    storageVisitorVisit n pv pe = visitEnumCases pe n.allCases := by
  unfold storageVisitorVisit
  rw [hk]

theorem storagePart_nil (ip : InvertibleProtocolKind) (c : Bool)
    (n : NominalTypeDecl)
    (hsP : n.storedProperties.find?
      (fun r => memberDisqualifies ip r.valueType) = none)
    (hsE : (n.allCases.flatMap EnumCaseDecl.elements).find?
      (enumElemDisq ip) = none) :
    (storageVisitorVisit n (lacksMatchingStorageVar ip c)
      (lacksMatchingStorageElem ip c)).snd = [] := by
  unfold storageVisitorVisit
  cases hk : n.kind
  · rw [visitStored_none ip c _ hsP]
  · rw [visitCases_none ip c _ hsE]
  · rw [visitStored_none ip c _ hsP]

theorem contrPart_count_zero (p : Diag → Bool) (b : Bool)
    (ip : InvertibleProtocolKind)
    (hp : p (Diag.inverseButAlsoConforms ip) = false) :
    countDiags p
      (if b = true then [Diag.inverseButAlsoConforms ip] else []) = 0 := by
  cases b <;> simp [countDiags, List.filter_cons, hp]

theorem contrPart_count_contr (b : Bool) (ip : InvertibleProtocolKind) :
    countDiags isContradictionDiag
      (if b = true then [Diag.inverseButAlsoConforms ip] else []) =
      if b = true then 1 else 0 := by
  cases b <;> simp [countDiags, List.filter_cons, isContradictionDiag]

theorem deinitPart_count_zero (p : Diag → Bool) (b : Bool)
    (ip : InvertibleProtocolKind) (c : Bool)
    (hp : p Diag.copyableIllegalDeinit = false)
    (ha : p (Diag.addInverse ip) = false) :
    countDiags p
      (if b = true then
        Diag.copyableIllegalDeinit :: emitAdviceToApplyInverseAfter ip c
      else []) = 0 := by
  cases b <;> cases c <;>
    simp [countDiags, List.filter_cons, emitAdviceToApplyInverseAfter, hp, ha]

theorem deinitPart_count_deinit (b : Bool) (ip : InvertibleProtocolKind)
    (c : Bool) :
    countDiags isDeinitDiag
      (if b = true then
        Diag.copyableIllegalDeinit :: emitAdviceToApplyInverseAfter ip c
      else []) = if b = true then 1 else 0 := by
  cases b <;> cases c <;>
    simp [countDiags, List.filter_cons, emitAdviceToApplyInverseAfter,
      isDeinitDiag]

theorem deinitPart_count_addInverse_zero (b : Bool)
    (ip : InvertibleProtocolKind) :
    countDiags isAddInverseDiag
      (if b = true then
        Diag.copyableIllegalDeinit ::
          emitAdviceToApplyInverseAfter ip false
      else []) = 0 := by
  cases b <;>
    simp [countDiags, List.filter_cons, emitAdviceToApplyInverseAfter,
      isAddInverseDiag]

/-! ### The claims -/

/-- Claim C1, counterexample. The claim says the Locality (Escapable)
per-member predicate reports a member as failing exactly when its type
itself has the Locality capability (is Escapable). At the concrete
escapable, error-free member type `escTy`, the predicate answers false,
refuting the claim: the source returns false when `type->isEscapable()`. -/
theorem locality_polarity_cex :
    escTy.isEscapable = true ∧ escTy.hasError = false ∧
    (lacksMatchingStorageCheck InvertibleProtocolKind.Escapable true "x"
      escTy false).fst = false := by
  decide

/-- Claim C1 (amended): for a Locality (Escapable) conformance check, the
per-member predicate reports an error-free member as failing exactly when
the member's resolved type LACKS the Locality capability (is not
Escapable); such a member triggers the storage-disqualification
violation. -/
theorem locality_polarity (canAdd : Bool) (name : String) (t : Ty)
    (isEnum : Bool) (h : t.hasError = false) :
    ((lacksMatchingStorageCheck InvertibleProtocolKind.Escapable canAdd name
      t isEnum).fst = !t.isEscapable) ∧
    (t.isEscapable = false →
      Diag.inverseTypeMemberInConformingType name isEnum
          InvertibleProtocolKind.Escapable ∈
        (lacksMatchingStorageCheck InvertibleProtocolKind.Escapable canAdd
          name t isEnum).snd) := by
  cases hesc : t.isEscapable
  · rw [check_eq_of_disq _ _ _ _ _ (by simp [memberDisqualifies, h, hesc])]
    simp
  · rw [check_eq_of_not_disq _ _ _ _ _
      (by simp [memberDisqualifies, h, hesc])]
    simp [hesc]

/-- Witness for C1, instantiated at the non-escapable type `nonEscTy`. -/
theorem locality_polarity_witness :
    nonEscTy.hasError = false ∧
    (((lacksMatchingStorageCheck InvertibleProtocolKind.Escapable true "x"
      nonEscTy false).fst = !nonEscTy.isEscapable) ∧
    (nonEscTy.isEscapable = false →
      Diag.inverseTypeMemberInConformingType "x" false
          InvertibleProtocolKind.Escapable ∈
        (lacksMatchingStorageCheck InvertibleProtocolKind.Escapable true "x"
          nonEscTy false).snd)) :=
  ⟨by decide, locality_polarity true "x" nonEscTy false (by decide)⟩

/-- Claim C2: for an enum whose first (in declaration order)
payload-carrying, error-free element `e` found by the walk has an argument
type lacking the Escapable capability, checking an unconditional Locality
conformance claim emits exactly one storage-disqualification violation,
and that violation is anchored on `e` and tagged as a variant payload
(`isEnum = true`). -/
theorem enum_payload_violation (mo : Bool) (n : NominalTypeDecl)
    (conf : ProtocolConformance) (e : EnumElementDecl)
    (hk : n.kind = NominalKind.enumDecl)
    (hnorm : conf.isNormal = true)
    (hcond : conf.conditionalRequirementsEmpty = true)
    (hfind : (n.allCases.flatMap EnumCaseDecl.elements).find?
      (enumElemDisq InvertibleProtocolKind.Escapable) = some e) :
    countDiags isStorageDiag
      (checkInvertibleConformanceCommon mo n conf
        InvertibleProtocolKind.Escapable) = 1 ∧
    Diag.inverseTypeMemberInConformingType e.name true
        InvertibleProtocolKind.Escapable ∈
      checkInvertibleConformanceCommon mo n conf
        InvertibleProtocolKind.Escapable := by
  have hnc : ¬ n.kind = NominalKind.classDecl := by simp [hk]
  rw [check_nonclass_eq mo n conf _ hnc,
    storageVisit_enum n hk _ _,
    visitCases_some InvertibleProtocolKind.Escapable
      (canAddInverseOf n conf InvertibleProtocolKind.Escapable)
      n.allCases e hfind]
  constructor
  · rw [countDiags_append, countDiags_append,
      contrPart_count_zero _ _ _ (by simp [isStorageDiag]),
      deinitPart_count_zero _ _ _ _ (by simp [isStorageDiag])
        (by simp [isStorageDiag])]
    simp [countDiags, List.filter_cons, isStorageDiag,
      fixits_filter_eq_nil _ _ _ isStorageDiag (by simp [isStorageDiag])
        (by simp [isStorageDiag]) (by simp [isStorageDiag])]
  · simp

/-- Witness for C2: Scenario D's enum `enumE` (case `a` with a
non-escapable payload) under an unconditional Locality claim. -/
theorem enum_payload_violation_witness :
    countDiags isStorageDiag
      (checkInvertibleConformanceCommon false enumE unconditionalConf
        InvertibleProtocolKind.Escapable) = 1 ∧
    Diag.inverseTypeMemberInConformingType "a" true
        InvertibleProtocolKind.Escapable ∈
      checkInvertibleConformanceCommon false enumE unconditionalConf
        InvertibleProtocolKind.Escapable :=
  enum_payload_violation false enumE unconditionalConf
    { name := "a", hasAssociatedValues := true, argumentType := nonEscTy }
    rfl rfl rfl (by decide)

/-- Claim C3: a class-category declaration never receives a
storage-disqualification or destructor-disqualification violation,
regardless of its member types or destructor; only the contradiction rule
can fire (at most once), and only when the reference-type-suppression
feature flag (`MoveOnlyClasses`) is active. -/
theorem class_exemption (mo : Bool) (n : NominalTypeDecl)
    (conf : ProtocolConformance) (ip : InvertibleProtocolKind)
    (hk : n.kind = NominalKind.classDecl) :
    countDiags isStorageDiag
      (checkInvertibleConformanceCommon mo n conf ip) = 0 ∧
    countDiags isDeinitDiag
      (checkInvertibleConformanceCommon mo n conf ip) = 0 ∧
    (mo = false → checkInvertibleConformanceCommon mo n conf ip = []) ∧
    countDiags isContradictionDiag
      (checkInvertibleConformanceCommon mo n conf ip) ≤ 1 := by
  rw [check_class_eq mo n conf ip hk]
  refine ⟨?_, ?_, ?_, ?_⟩
  · split <;> simp [countDiags, List.filter_cons, isStorageDiag]
  · split <;> simp [countDiags, List.filter_cons, isDeinitDiag]
  · intro hmo; subst hmo; simp
  · split <;> simp [countDiags, List.filter_cons, isContradictionDiag]

/-- Witness for C3: the class `classRef`, which has a noncopyable field,
a destructor and a Copyable suppression, still gets no storage or
destructor violation. -/
theorem class_exemption_witness :
    countDiags isStorageDiag
      (checkInvertibleConformanceCommon true classRef unconditionalConf
        InvertibleProtocolKind.Copyable) = 0 ∧
    countDiags isDeinitDiag
      (checkInvertibleConformanceCommon true classRef unconditionalConf
        InvertibleProtocolKind.Copyable) = 0 ∧
    (true = false →
      checkInvertibleConformanceCommon true classRef unconditionalConf
        InvertibleProtocolKind.Copyable = []) ∧
    countDiags isContradictionDiag
      (checkInvertibleConformanceCommon true classRef unconditionalConf
        InvertibleProtocolKind.Copyable) ≤ 1 :=
  class_exemption true classRef unconditionalConf
    InvertibleProtocolKind.Copyable rfl

/-- Claim C4: for a struct whose stored fields include N ≥ 2 disqualifying
members, exactly one storage-disqualification violation is produced, and
it identifies the first disqualifying member in declaration order (the one
`find?` returns); members after the first hit contribute no diagnostic. -/
theorem storage_short_circuit (mo : Bool) (n : NominalTypeDecl)
    (conf : ProtocolConformance) (ip : InvertibleProtocolKind) (q : VarDecl)
    (hk : n.kind = NominalKind.structDecl)
    (hN : 2 ≤ (n.storedProperties.filter
      (fun r => memberDisqualifies ip r.valueType)).length)
    (hfind : n.storedProperties.find?
      (fun r => memberDisqualifies ip r.valueType) = some q) :
    countDiags isStorageDiag
      (checkInvertibleConformanceCommon mo n conf ip) = 1 ∧
    Diag.inverseTypeMemberInConformingType q.name false ip ∈
      checkInvertibleConformanceCommon mo n conf ip := by
  have hnc : ¬ n.kind = NominalKind.classDecl := by simp [hk]
  rw [check_nonclass_eq mo n conf ip hnc,
    storageVisit_struct n hk _ _,
    visitStored_some ip (canAddInverseOf n conf ip) n.storedProperties q
      hfind]
  constructor
  · rw [countDiags_append, countDiags_append,
      contrPart_count_zero _ _ _ (by simp [isStorageDiag]),
      deinitPart_count_zero _ _ _ _ (by simp [isStorageDiag])
        (by simp [isStorageDiag])]
    simp [countDiags, List.filter_cons, isStorageDiag,
      fixits_filter_eq_nil _ _ _ isStorageDiag (by simp [isStorageDiag])
        (by simp [isStorageDiag]) (by simp [isStorageDiag])]
  · simp

/-- Witness for C4: the struct with two noncopyable fields `x`, `y` gets
exactly one violation, identifying `x`. -/
theorem storage_short_circuit_witness :
    countDiags isStorageDiag
      (checkInvertibleConformanceCommon false structTwoBad unconditionalConf
        InvertibleProtocolKind.Copyable) = 1 ∧
    Diag.inverseTypeMemberInConformingType "x" false
        InvertibleProtocolKind.Copyable ∈
      checkInvertibleConformanceCommon false structTwoBad unconditionalConf
        InvertibleProtocolKind.Copyable :=
  storage_short_circuit false structTwoBad unconditionalConf
    InvertibleProtocolKind.Copyable { name := "x", valueType := noncopyTy }
    rfl (by decide) (by decide)

/-- Claim C5, counterexample. The claim says any declaration that
suppresses capability C and unconditionally claims C gets exactly one
contradiction violation. The class `classRef` suppresses Copyable and
claims it unconditionally, yet with the `MoveOnlyClasses` feature flag off
the checker emits no contradiction at all. -/
theorem contradiction_symmetry_cex :
    (computeInverses classRef).contains InvertibleProtocolKind.Copyable
      = true ∧
    unconditionalConf.isNormal = true ∧
    unconditionalConf.conditionalRequirementsEmpty = true ∧
    countDiags isContradictionDiag
      (checkInvertibleConformanceCommon false classRef unconditionalConf
        InvertibleProtocolKind.Copyable) = 0 := by
  decide

/-- Claim C5 (amended): if a declaration explicitly suppresses capability
C (directly or via a legacy attribute) and the claim under test is an
unconditional conformance to C, then — provided the declaration is not a
class, or the reference-type-suppression feature flag is active — exactly
one contradiction violation is emitted; the outcome is independent of the
declaration's storage contents (which are arbitrary here). -/
theorem contradiction_symmetry (mo : Bool) (n : NominalTypeDecl)
    (conf : ProtocolConformance) (ip : InvertibleProtocolKind)
    (hsupp : (computeInverses n).contains ip = true)
    (hnorm : conf.isNormal = true)
    (hcond : conf.conditionalRequirementsEmpty = true)
    (hclass : n.kind = NominalKind.classDecl → mo = true) :
    countDiags isContradictionDiag
      (checkInvertibleConformanceCommon mo n conf ip) = 1 := by
  by_cases hk : n.kind = NominalKind.classDecl
  · rw [check_class_eq mo n conf ip hk, hclass hk]
    simp [hsupp, hnorm, hcond, countDiags, List.filter_cons,
      isContradictionDiag]
  · rw [check_nonclass_eq mo n conf ip hk, countDiags_append,
      countDiags_append, contrPart_count_contr,
      deinitPart_count_zero _ _ _ _ (by simp [isContradictionDiag])
        (by simp [isContradictionDiag]),
      storagePart_count_of_not_mem _ _ _ _
        (by simp [isContradictionDiag]) (by simp [isContradictionDiag])
        (by simp [isContradictionDiag])
        (by intro a b; simp [isContradictionDiag])]
    simp [hsupp, hnorm, hcond]

/-- Witness for C5: the struct that suppresses Copyable and claims it
unconditionally gets exactly one contradiction violation. -/
theorem contradiction_symmetry_witness :
    countDiags isContradictionDiag
      (checkInvertibleConformanceCommon false suppressedStruct
        unconditionalConf InvertibleProtocolKind.Copyable) = 1 :=
  contradiction_symmetry false suppressedStruct unconditionalConf
    InvertibleProtocolKind.Copyable (by decide) rfl rfl (by decide)

/-- Claim C6: the destructor rule applies only to Duplication (Copyable):
a non-class declaration with a user-defined destructor and all-conforming
storage gets exactly one destructor-disqualification violation when
checked for Copyable and none when checked for Escapable; and the storage
check is not suppressed by the destructor (the storage-violation count
does not depend on the destructor flag). -/
theorem deinit_rule_duplication_only (mo : Bool) (n : NominalTypeDecl)
    (conf : ProtocolConformance)
    (hk : ¬ n.kind = NominalKind.classDecl)
    (hd : n.hasValueTypeDestructor = true)
    (hsP : n.storedProperties.find?
      (fun r => memberDisqualifies InvertibleProtocolKind.Copyable
        r.valueType) = none)
    (hsE : (n.allCases.flatMap EnumCaseDecl.elements).find?
      (enumElemDisq InvertibleProtocolKind.Copyable) = none) :
    countDiags isDeinitDiag
      (checkInvertibleConformanceCommon mo n conf
        InvertibleProtocolKind.Copyable) = 1 ∧
    countDiags isStorageDiag
      (checkInvertibleConformanceCommon mo n conf
        InvertibleProtocolKind.Copyable) = 0 ∧
    countDiags isDeinitDiag
      (checkInvertibleConformanceCommon mo n conf
        InvertibleProtocolKind.Escapable) = 0 ∧
    ∀ b : Bool,
      countDiags isStorageDiag
        (checkInvertibleConformanceCommon mo
          { n with hasValueTypeDestructor := b } conf
          InvertibleProtocolKind.Copyable) =
      countDiags isStorageDiag
        (checkInvertibleConformanceCommon mo n conf
          InvertibleProtocolKind.Copyable) := by
  have hzero : ∀ m : NominalTypeDecl, ¬ m.kind = NominalKind.classDecl →
      m.storedProperties.find?
        (fun r => memberDisqualifies InvertibleProtocolKind.Copyable
          r.valueType) = none →
      (m.allCases.flatMap EnumCaseDecl.elements).find?
        (enumElemDisq InvertibleProtocolKind.Copyable) = none →
      countDiags isStorageDiag
        (checkInvertibleConformanceCommon mo m conf
          InvertibleProtocolKind.Copyable) = 0 := by
    intro m hm hp he
    rw [check_nonclass_eq mo m conf _ hm, storagePart_nil _ _ _ hp he,
      countDiags_append, countDiags_append,
      contrPart_count_zero _ _ _ (by simp [isStorageDiag]),
      deinitPart_count_zero _ _ _ _ (by simp [isStorageDiag])
        (by simp [isStorageDiag])]
    rfl
  refine ⟨?_, hzero n hk hsP hsE, ?_, ?_⟩
  · rw [check_nonclass_eq mo n conf _ hk, countDiags_append,
      countDiags_append,
      contrPart_count_zero _ _ _ (by simp [isDeinitDiag]),
      deinitPart_count_deinit,
      storagePart_count_of_not_mem _ _ _ _ (by simp [isDeinitDiag])
        (by simp [isDeinitDiag]) (by simp [isDeinitDiag])
        (by intro a b; simp [isDeinitDiag])]
    simp [hd]
  · rw [check_nonclass_eq mo n conf _ hk, countDiags_append,
      countDiags_append,
      contrPart_count_zero _ _ _ (by simp [isDeinitDiag]),
      deinitPart_count_deinit,
      storagePart_count_of_not_mem _ _ _ _ (by simp [isDeinitDiag])
        (by simp [isDeinitDiag]) (by simp [isDeinitDiag])
        (by intro a b; simp [isDeinitDiag])]
    simp
  · intro b
    rw [hzero n hk hsP hsE,
      hzero { n with hasValueTypeDestructor := b } hk hsP hsE]

/-- Witness for C6: Scenario E's struct (destructor, copyable storage). -/
theorem deinit_rule_duplication_only_witness :
    countDiags isDeinitDiag
      (checkInvertibleConformanceCommon false structDeinit conditionalConf
        InvertibleProtocolKind.Copyable) = 1 ∧
    countDiags isStorageDiag
      (checkInvertibleConformanceCommon false structDeinit conditionalConf
        InvertibleProtocolKind.Copyable) = 0 ∧
    countDiags isDeinitDiag
      (checkInvertibleConformanceCommon false structDeinit conditionalConf
        InvertibleProtocolKind.Escapable) = 0 ∧
    ∀ b : Bool,
      countDiags isStorageDiag
        (checkInvertibleConformanceCommon false
          { structDeinit with hasValueTypeDestructor := b } conditionalConf
          InvertibleProtocolKind.Copyable) =
      countDiags isStorageDiag
        (checkInvertibleConformanceCommon false structDeinit conditionalConf
          InvertibleProtocolKind.Copyable) :=
  deinit_rule_duplication_only false structDeinit conditionalConf
    (by decide) rfl (by decide) (by decide)

/-- Claim C7: the add-inverse remediation advice (with its fix-it) is
emitted by the advisor exactly when `canAddInverse` holds; and whenever
the capability is already explicitly suppressed or the claim is already an
unconditional conformance (i.e. `canAddInverse` is false), no
suppression-edit note appears anywhere in the checker's output. -/
theorem remediation_gating (mo : Bool) (n : NominalTypeDecl)
    (conf : ProtocolConformance) (ip : InvertibleProtocolKind) :
    emitAdviceToApplyInverseAfter ip true = [Diag.addInverse ip] ∧
    emitAdviceToApplyInverseAfter ip false = [] ∧
    (((computeInverses n).contains ip = true ∨
      (conf.isNormal && conf.conditionalRequirementsEmpty) = true) →
      countDiags isAddInverseDiag
        (checkInvertibleConformanceCommon mo n conf ip) = 0) := by
  refine ⟨rfl, rfl, ?_⟩
  intro hgate
  have hc : canAddInverseOf n conf ip = false := by
    rcases hgate with h | h <;> simp [canAddInverseOf, h]
  by_cases hk : n.kind = NominalKind.classDecl
  · rw [check_class_eq mo n conf ip hk]
    exact contrPart_count_zero _ _ _ (by simp [isAddInverseDiag])
  · rw [check_nonclass_eq mo n conf ip hk, hc, countDiags_append,
      countDiags_append,
      contrPart_count_zero _ _ _ (by simp [isAddInverseDiag]),
      deinitPart_count_addInverse_zero,
      storagePart_count_addInverse_zero]

/-- Witness for C7: the struct already suppressing Copyable, under an
unconditional claim, gets no suppression-edit note. -/
theorem remediation_gating_witness :
    emitAdviceToApplyInverseAfter InvertibleProtocolKind.Copyable true
      = [Diag.addInverse InvertibleProtocolKind.Copyable] ∧
    emitAdviceToApplyInverseAfter InvertibleProtocolKind.Copyable false
      = [] ∧
    countDiags isAddInverseDiag
      (checkInvertibleConformanceCommon false suppressedStruct
        unconditionalConf InvertibleProtocolKind.Copyable) = 0 :=
  ⟨(remediation_gating false suppressedStruct unconditionalConf
      InvertibleProtocolKind.Copyable).1,
   (remediation_gating false suppressedStruct unconditionalConf
      InvertibleProtocolKind.Copyable).2.1,
   (remediation_gating false suppressedStruct unconditionalConf
      InvertibleProtocolKind.Copyable).2.2 (Or.inl (by decide))⟩

/-- Claim C8: the suppressed-capability set is the union of the direct
inverse annotations in the inheritance clause and the legacy-attribute
translations: the legacy move-only attribute contributes exactly a
Copyable (Duplication) suppression, the legacy non-escaping attribute
exactly an Escapable (Locality) suppression; with no signal from either
source the set is empty (and the computation is a total function, so it
cannot fail). -/
theorem inverses_union (n : NominalTypeDecl) :
    ((computeInverses n).contains InvertibleProtocolKind.Copyable
      = (n.inheritedInverses.contains InvertibleProtocolKind.Copyable
          || n.hasMoveOnlyAttr)) ∧
    ((computeInverses n).contains InvertibleProtocolKind.Escapable
      = (n.inheritedInverses.contains InvertibleProtocolKind.Escapable
          || n.hasNonEscapableAttr)) ∧
    ((n.inheritedInverses = emptyInverseSet ∧ n.hasMoveOnlyAttr = false ∧
      n.hasNonEscapableAttr = false) →
      computeInverses n = emptyInverseSet) := by
  refine ⟨?_, ?_, ?_⟩
  · cases hm : n.hasMoveOnlyAttr <;> cases he : n.hasNonEscapableAttr <;>
      simp [computeInverses, hm, he, InvertibleProtocolSet.contains,
        InvertibleProtocolSet.insert]
  · cases hm : n.hasMoveOnlyAttr <;> cases he : n.hasNonEscapableAttr <;>
      simp [computeInverses, hm, he, InvertibleProtocolSet.contains,
        InvertibleProtocolSet.insert]
  · rintro ⟨h1, h2, h3⟩
    simp [computeInverses, h1, h2, h3]

/-- Witness for C8: `enumE` has no suppression signal, so its computed
set is empty. -/
theorem inverses_union_witness :
    ((computeInverses enumE).contains InvertibleProtocolKind.Copyable
      = (enumE.inheritedInverses.contains InvertibleProtocolKind.Copyable
          || enumE.hasMoveOnlyAttr)) ∧
    ((computeInverses enumE).contains InvertibleProtocolKind.Escapable
      = (enumE.inheritedInverses.contains InvertibleProtocolKind.Escapable
          || enumE.hasNonEscapableAttr)) ∧
    computeInverses enumE = emptyInverseSet :=
  ⟨(inverses_union enumE).1, (inverses_union enumE).2.1,
   (inverses_union enumE).2.2 ⟨rfl, rfl, rfl⟩⟩

/-- Claim C9: a storage member whose resolved type is already in an error
state is reported as not failing, with no diagnostic emitted, and the
traversal continues past it as if it were absent. -/
theorem error_member_skipped (ip : InvertibleProtocolKind) (canAdd : Bool)
    (name : String) (t : Ty) (isEnum : Bool) (h : t.hasError = true) :
    lacksMatchingStorageCheck ip canAdd name t isEnum = (false, []) ∧
    (∀ (p : VarDecl) (ps : List VarDecl), p.valueType.hasError = true →
      visitStoredProperties (lacksMatchingStorageVar ip canAdd) (p :: ps) =
        visitStoredProperties (lacksMatchingStorageVar ip canAdd) ps) := by
  constructor
  · unfold lacksMatchingStorageCheck
    simp [h]
  · intro p ps hp
    have hcheck : lacksMatchingStorageVar ip canAdd p = (false, []) := by
      unfold lacksMatchingStorageVar lacksMatchingStorageCheck
      simp [hp]
    have hstep : visitStoredProperties (lacksMatchingStorageVar ip canAdd)
        (p :: ps) =
        (let r := lacksMatchingStorageVar ip canAdd p
         if r.fst then (true, r.snd)
         else
           let rest :=
             visitStoredProperties (lacksMatchingStorageVar ip canAdd) ps
           (rest.fst, r.snd ++ rest.snd)) := rfl
    rw [hstep, hcheck]
    simp

/-- Witness for C9: the erroneous first member of `structErrThenBad` is
skipped; the walk behaves as if only `y` were present. -/
theorem error_member_skipped_witness :
    errorTy.hasError = true ∧
    lacksMatchingStorageCheck InvertibleProtocolKind.Copyable true "x"
      errorTy false = (false, []) ∧
    visitStoredProperties
        (lacksMatchingStorageVar InvertibleProtocolKind.Copyable true)
        structErrThenBad.storedProperties =
      visitStoredProperties
        (lacksMatchingStorageVar InvertibleProtocolKind.Copyable true)
        [{ name := "y", valueType := noncopyTy }] :=
  ⟨rfl,
   (error_member_skipped InvertibleProtocolKind.Copyable true "x" errorTy
      false rfl).1,
   (error_member_skipped InvertibleProtocolKind.Copyable true "x" errorTy
      false rfl).2 { name := "x", valueType := errorTy }
     [{ name := "y", valueType := noncopyTy }] rfl⟩

/-- Claim C10: any single invocation of the checker on one (declaration,
capability) pair emits at most one contradiction violation, at most one
destructor-disqualification violation, and at most one
storage-disqualification violation, hence at most three primary
violations in total. -/
theorem per_invocation_bounds (mo : Bool) (n : NominalTypeDecl)
    (conf : ProtocolConformance) (ip : InvertibleProtocolKind) :
    countDiags isContradictionDiag
      (checkInvertibleConformanceCommon mo n conf ip) ≤ 1 ∧
    countDiags isDeinitDiag
      (checkInvertibleConformanceCommon mo n conf ip) ≤ 1 ∧
    countDiags isStorageDiag
      (checkInvertibleConformanceCommon mo n conf ip) ≤ 1 ∧
    countDiags
      (fun d => (isContradictionDiag d || isDeinitDiag d) || isStorageDiag d)
      (checkInvertibleConformanceCommon mo n conf ip) ≤ 3 := by
  have h1 : countDiags isContradictionDiag
      (checkInvertibleConformanceCommon mo n conf ip) ≤ 1 := by
    by_cases hk : n.kind = NominalKind.classDecl
    · rw [check_class_eq mo n conf ip hk, contrPart_count_contr]
      split <;> omega
    · rw [check_nonclass_eq mo n conf ip hk, countDiags_append,
        countDiags_append, contrPart_count_contr,
        deinitPart_count_zero _ _ _ _ (by simp [isContradictionDiag])
          (by simp [isContradictionDiag]),
        storagePart_count_of_not_mem _ _ _ _
          (by simp [isContradictionDiag]) (by simp [isContradictionDiag])
          (by simp [isContradictionDiag])
          (by intro a b; simp [isContradictionDiag])]
      split <;> omega
  have h2 : countDiags isDeinitDiag
      (checkInvertibleConformanceCommon mo n conf ip) ≤ 1 := by
    by_cases hk : n.kind = NominalKind.classDecl
    · rw [check_class_eq mo n conf ip hk,
        contrPart_count_zero _ _ _ (by simp [isDeinitDiag])]
      omega
    · rw [check_nonclass_eq mo n conf ip hk, countDiags_append,
        countDiags_append,
        contrPart_count_zero _ _ _ (by simp [isDeinitDiag]),
        deinitPart_count_deinit,
        storagePart_count_of_not_mem _ _ _ _ (by simp [isDeinitDiag])
          (by simp [isDeinitDiag]) (by simp [isDeinitDiag])
          (by intro a b; simp [isDeinitDiag])]
      split <;> omega
  have h3 : countDiags isStorageDiag
      (checkInvertibleConformanceCommon mo n conf ip) ≤ 1 := by
    by_cases hk : n.kind = NominalKind.classDecl
    · rw [check_class_eq mo n conf ip hk,
        contrPart_count_zero _ _ _ (by simp [isStorageDiag])]
      omega
    · rw [check_nonclass_eq mo n conf ip hk, countDiags_append,
        countDiags_append,
        contrPart_count_zero _ _ _ (by simp [isStorageDiag]),
        deinitPart_count_zero _ _ _ _ (by simp [isStorageDiag])
          (by simp [isStorageDiag])]
      have := storagePart_count_storage_le ip (canAddInverseOf n conf ip) n
      omega
  refine ⟨h1, h2, h3, ?_⟩
  have h12 := countDiags_or_le isContradictionDiag isDeinitDiag
    (checkInvertibleConformanceCommon mo n conf ip)
  have h123 := countDiags_or_le
    (fun d => isContradictionDiag d || isDeinitDiag d) isStorageDiag
    (checkInvertibleConformanceCommon mo n conf ip)
  omega

end Invertible
